import Mathlib

/-!
Shallow embedding of the `clientx` resilient HTTP request engine
(`Request`, its configuration options, default backoff policy, middleware
chain builder, buffer pool and shared-client store), together with theorems
checking the design document's claims against it.

Conventions of the embedding:
* machine integers (`int`, `time.Duration` = int64 nanoseconds) are `Int`,
  with explicit wrapping modulo 2^64 where the source can overflow;
* byte slices are `List Nat`;
* the outcome of each attempt's composed `doFunc(req)` call, the possible
  failure of `http.NewRequestWithContext`, and the winner of the
  backoff-wait `select` are supplied by an oracle (`Env`), one entry per
  attempt index — these are the engine's only interactions with the
  outside world;
* observable actions (buffer-pool traffic, sends, backoff waits) are
  recorded in an event trace so that claims about attempt counts, waits
  and pool discipline can be stated.
-/

namespace clientx

/-- An HTTP response as the retry loop observes it: status code and body
bytes (`resp.StatusCode`, `resp.Body`). -/
structure Response where
  StatusCode : Int
  Body : List Nat
deriving DecidableEq, Repr

/-- Plain (non-`HTTPError`) Go error values that can flow through the
loop. `ctxCanceled` is the value of `ctx.Err()`; `sendCanceled` stands for
a transport error returned by `doFunc` because the context was cancelled
during the send (a `url.Error` wrapping `ctx.Err()`, a distinct value from
`ctx.Err()` itself); `transport` is any other transport-level error;
`badRequest` is an error from `http.NewRequestWithContext`. -/
inductive GoErr where
  | ctxCanceled : GoErr
  | sendCanceled : GoErr
  | transport : Nat → GoErr
  | badRequest : Nat → GoErr
deriving DecidableEq, Repr

/-- The `HTTPError` struct of the source: status code, method, URL,
captured body bytes and optional underlying error. -/
structure HTTPError where
  StatusCode : Int
  Method : String
  URL : String
  Body : List Nat
  Err : Option GoErr
deriving DecidableEq, Repr

/-- An error value returned by `Request`: either an `*HTTPError` or a
plain Go error (request-construction failure or `ctx.Err()`). -/
inductive ReqError where
  | httpError : HTTPError → ReqError
  | goError : GoErr → ReqError
deriving DecidableEq, Repr

/-- Outcome of one invocation of the composed `doFunc`: either a response
with a nil error (`ok`, matching `http.Client.Do`'s contract that a nil
error comes with a non-nil response), or a non-nil error possibly
accompanied by a response (middlewares may return both). -/
inductive SendOutcome where
  | ok : Response → SendOutcome
  | fail : GoErr → Option Response → SendOutcome
deriving DecidableEq, Repr

/-- Oracle data for one attempt index: whether
`http.NewRequestWithContext` fails, what the composed `doFunc` returns,
and whether `ctx.Done()` wins the backoff `select` that may follow this
attempt. -/
structure AttemptSpec where
  newReqErr : Option GoErr
  send : SendOutcome
  ctxDoneInBackoff : Bool

/-- The environment: oracle data for every attempt index. -/
abbrev Env := Nat → AttemptSpec

/-- A `bytes.Buffer`, reduced to its content bytes. -/
abbrev Buffer := List Nat

/-- `buf.Reset()`: the content becomes empty regardless of what it was. -/
def Buffer.reset (_ : Buffer) : Buffer := []

/-- `buf.Write(p)`: append `p` to the content. -/
def Buffer.write (b : Buffer) (p : List Nat) : Buffer := b ++ p

/-- `bufferPool.Get()`: take the most recently returned buffer, or a fresh
empty one when the pool is empty (the pool's `New` function). Returns the
buffer and the remaining pool. -/
def bufferPoolGet (pool : List Buffer) : Buffer × List Buffer :=
  match pool with
  | [] => ([], [])
  | b :: rest => (b, rest)

/-- `bufferPool.Put(buf)`: return a buffer to the pool. -/
def bufferPoolPut (pool : List Buffer) (b : Buffer) : List Buffer := b :: pool

/-- An `*http.Request` as far as the middleware chain observes it. -/
structure HttpReq where
  method : String
  url : String
deriving DecidableEq, Repr

/-- The shape `func(*http.Request) (*http.Response, error)`, enriched with
an execution log so that the order in which middleware logic runs is
observable. -/
abbrev DoFun := HttpReq → List String → SendOutcome × List String

/-- The `Middleware` type of the source: a transformer of send
capabilities. -/
abbrev Middleware := DoFun → DoFun

/-- The chain construction of `Request` (source lines 239-247):
`doFunc := GetClient().Do`, then for `i` from the last middleware index
down to `0`, `doFunc` is replaced by middleware `i` wrapped around the
previous `doFunc`. The loop therefore produces
`mws[0] (mws[1] (... (mws[n-1] base)))`, which is exactly a right fold. -/
def buildChain (mws : List Middleware) (base : DoFun) : DoFun :=
  mws.foldr (fun mw acc => mw acc) base

/-- A middleware that logs a "before" line, calls `next`, then logs an
"after" line — the canonical observer for composition order. -/
def mkLogMiddleware (id : String) : Middleware :=
  fun next req log =>
    let r := next req (log ++ ["before " ++ id])
    (r.1, r.2 ++ ["after " ++ id])

/-- A base send capability that logs "base" and returns a fixed outcome,
standing for `GetClient().Do`. -/
def baseDo (outcome : SendOutcome) : DoFun :=
  fun _ log => (outcome, log ++ ["base"])

/-- The pool parameters of `*http.Transport` that the tuning options
touch, plus the other numeric knobs set by the default client. -/
structure Transport where
  MaxIdleConns : Int
  IdleConnTimeout : Int
  TLSHandshakeTimeout : Int
  ExpectContinueTimeout : Int
  MaxIdleConnsPerHost : Int
  MaxConnsPerHost : Int
  DisableKeepAlives : Bool
deriving DecidableEq, Repr

/-- The `http.RoundTripper` stored in `client.Transport`: either an
`*http.Transport` (the case the type assertions in the tuning options
succeed on) or some other implementation. -/
inductive RoundTripper where
  | httpTransport : Transport → RoundTripper
  | custom : Nat → RoundTripper
deriving DecidableEq, Repr

/-- An `http.Client`: its transport and overall timeout. -/
structure Client where
  Transport : RoundTripper
  Timeout : Int
deriving DecidableEq, Repr

/-- The process-wide mutable state behind `defaultClient`: a heap of
client objects addressed by identity, and the reference currently held by
the `defaultClient` variable. `GetClient` hands out the reference; the
tuning options mutate the referenced object in place. -/
structure World where
  clientRef : Nat
  heap : Nat → Client

/-- `GetClient()`: return the current shared client reference. -/
def GetClient (w : World) : Nat := w.clientRef

/-- `SetClient(c)`: make the `defaultClient` variable point at `c`. -/
def SetClient (w : World) (ref : Nat) : World := { w with clientRef := ref }

/-- Mutate the client object a reference points at, leaving every other
heap cell untouched. -/
def mutateClient (w : World) (ref : Nat) (f : Client → Client) : World :=
  { w with heap := fun r => if r = ref then f (w.heap r) else w.heap r }

/-- The `Option` struct of the source (named `ReqOption` here because
`Option` is taken): retry budget, backoff policy, headers, force-retry
flag and middleware chain. -/
structure ReqOption where
  Retries : Int
  Backoff : Nat → Int
  Headers : List (String × String)
  ForceRetry : Bool
  Middlewares : List Middleware

/-- The `OptionFunc` type: the source's `func(*Option)` closures both
mutate the option struct and (for the transport-tuning options) the
global client, so they are modelled as transformers of the pair. -/
abbrev OptionFunc := ReqOption → World → ReqOption × World

/-- `WithRetries(n)`: set the retry budget. -/
def WithRetries (n : Int) : OptionFunc :=
  fun o w => ({ o with Retries := n }, w)

/-- `WithBackoff(f)`: replace the backoff policy. -/
def WithBackoff (f : Nat → Int) : OptionFunc :=
  fun o w => ({ o with Backoff := f }, w)

/-- `WithHeaders(h)`: merge the given headers into the option, later
values overwriting earlier ones for the same key. -/
def WithHeaders (h : List (String × String)) : OptionFunc :=
  fun o w =>
    ({ o with Headers := h.foldl (fun acc kv =>
        (acc.filter (fun kv0 => kv0.1 ≠ kv.1)) ++ [kv]) o.Headers }, w)

/-- `WithForceRetry()`: force retries for every method. -/
def WithForceRetry : OptionFunc :=
  fun o w => ({ o with ForceRetry := true }, w)

/-- `WithMiddleware(mw)`: append a middleware to the chain. -/
def WithMiddleware (mw : Middleware) : OptionFunc :=
  fun o w => ({ o with Middlewares := o.Middlewares ++ [mw] }, w)

/-- `WithTimeout(d)`: `client := GetClient(); client.Timeout = timeout` —
mutates the shared client in place, does not touch the option. -/
def WithTimeout (timeout : Int) : OptionFunc :=
  fun o w => (o, mutateClient w (GetClient w) (fun c => { c with Timeout := timeout }))

/-- The shared pattern of the three transport-guarded options:
`client := GetClient(); if t, ok := client.Transport.(*http.Transport);
ok { mutate t }` — when the type assertion succeeds the referenced
client's transport is updated in place by `g`, otherwise nothing
happens. -/
def tuneTransport (w : World) (g : Transport → Transport) : World :=
  match (w.heap (GetClient w)).Transport with
  | .httpTransport t =>
      mutateClient w (GetClient w)
        (fun c => { c with Transport := .httpTransport (g t) })
  | .custom _ => w

/-- `WithMaxIdleConns(n)`: mutate the shared client's transport in place
when it is an `*http.Transport`; no-op otherwise. -/
def WithMaxIdleConns (n : Int) : OptionFunc :=
  fun o w => (o, tuneTransport w (fun t => { t with MaxIdleConns := n }))

/-- `WithMaxConnsPerHost(n)`: mutate the shared client's transport in
place when it is an `*http.Transport`; no-op otherwise. -/
def WithMaxConnsPerHost (n : Int) : OptionFunc :=
  fun o w => (o, tuneTransport w (fun t => { t with MaxConnsPerHost := n }))

/-- `WithIdleConnTimeout(d)`: mutate the shared client's transport in
place when it is an `*http.Transport`; no-op otherwise. -/
def WithIdleConnTimeout (d : Int) : OptionFunc :=
  fun o w => (o, tuneTransport w (fun t => { t with IdleConnTimeout := d }))

/-- Two's-complement wrapping of an unbounded integer into int64, the
representation of Go's `int` and `time.Duration` arithmetic. -/
def wrap64 (x : Int) : Int := (x + 2 ^ 63) % 2 ^ 64 - 2 ^ 63

/-- The source's `defaultBackoff`:
`d := time.Duration(1<<attempt) * 500 * time.Millisecond`, returning 30s
when `d > 30s` and `d` itself otherwise. `1 << attempt` on a 64-bit `int`
is `wrap64 (2 ^ attempt)` (zero once the shift distance reaches 64), and
each multiplication wraps in int64; durations are in nanoseconds. -/
def defaultBackoff (attempt : Nat) : Int :=
  let d := wrap64 (wrap64 (wrap64 (2 ^ attempt) * 500) * 1000000)
  if d > 30 * 1000000000 then 30 * 1000000000 else d

/-- Observable events of one `Request` call, each tagged with the attempt
index it belongs to: buffer-pool traffic, the send through the composed
chain, and a backoff wait carrying the computed duration. -/
inductive Event where
  | poolGet : Nat → Event
  | poolPut : Nat → Event
  | send : Nat → Event
  | wait : Nat → Int → Event
deriving DecidableEq, Repr

/-- Whether an event is buffer-pool traffic. -/
def Event.isPool : Event → Bool
  | .poolGet _ => true
  | .poolPut _ => true
  | _ => false

/-- Whether an event is a send. -/
def Event.isSend : Event → Bool
  | .send _ => true
  | _ => false

/-- Whether an event is a backoff wait. -/
def Event.isWait : Event → Bool
  | .wait _ _ => true
  | _ => false

/-- The buffer-pool event pattern of `n` consecutive attempts starting at
attempt `a`: each attempt acquires exactly one buffer and returns it
before the next attempt acquires. -/
def poolPairs : Nat → Nat → List Event
  | _, 0 => []
  | a, n + 1 => Event.poolGet a :: Event.poolPut a :: poolPairs (a + 1) n

/-- Everything `Request` produces: the returned `(resp, err)` pair, the
event trace, and the final buffer-pool content. -/
structure LoopOut where
  resp : Option Response
  err : Option ReqError
  trace : List Event
  pool : List Buffer
deriving DecidableEq, Repr

/-- The `strings.ToUpper` of the source's retry check, as a direct map of
`Char.toUpper` over the characters (ASCII case mapping, which is all that
matters for comparing against the ASCII method names "GET" and "HEAD"). -/
def stringsToUpper (s : String) : String := ⟨s.data.map Char.toUpper⟩

/-- The attempt loop of `Request` (source lines 206-308), one recursive
step per iteration of `for attempt := 0; attempt <= options.Retries;
attempt++`. `fuel` is the number of iterations the loop condition still
admits (so the zero-fuel case is the loop exiting and running
`return nil, lastErr`); `attempt`, `lastErr`, the pool content and the
accumulated trace are the loop-carried state. Per iteration, mirroring
the source:
* body resolution — `nil` body: no reader; body shorter than 1024 bytes:
  a direct `bytes.NewReader`; otherwise `bufferPool.Get()`, `buf.Reset()`,
  `buf.Write(body)`;
* `http.NewRequestWithContext` may fail (oracle), in which case a pooled
  buffer is returned and the error is surfaced as-is (header application
  on the request has no observable effect here);
* the composed `doFunc` is invoked (oracle outcome) and a pooled buffer
  is returned immediately after;
* classification: nil error with 2xx status returns the response; else up
  to 512 body bytes are captured; a response with 4xx status returns an
  `HTTPError` carrying that status at once; anything else records an
  `HTTPError` with status 0 wrapping the transport error as `lastErr`,
  and retries only when attempts remain and the method is GET/HEAD (after
  `strings.ToUpper`) or `ForceRetry` is set, racing the backoff timer
  against `ctx.Done()`. -/
def requestLoop (method urlStr : String) (body : Option (List Nat)) (options : ReqOption)
    (env : Env) : Nat → Nat → Option ReqError → List Buffer → List Event → LoopOut
  | _attempt, 0, lastErr, pool, trace =>
      { resp := none, err := lastErr, trace := trace, pool := pool }
  | attempt, fuel + 1, _lastErr, pool, trace =>
      let spec := env attempt
      let usesPool : Bool := match body with
        | some bs => ! decide (bs.length < 1024)
        | none => false
      let bufContent : Buffer := (Buffer.reset (bufferPoolGet pool).1).write (body.getD [])
      let pool1 := if usesPool then (bufferPoolGet pool).2 else pool
      let trace1 := if usesPool then trace ++ [Event.poolGet attempt] else trace
      match spec.newReqErr with
      | some e =>
          let pool2 := if usesPool then bufferPoolPut pool1 bufContent else pool1
          let trace2 := if usesPool then trace1 ++ [Event.poolPut attempt] else trace1
          { resp := none, err := some (.goError e), trace := trace2, pool := pool2 }
      | none =>
        let trace2 := trace1 ++ [Event.send attempt]
        let outcome := spec.send
        let pool2 := if usesPool then bufferPoolPut pool1 bufContent else pool1
        let trace3 := if usesPool then trace2 ++ [Event.poolPut attempt] else trace2
        let success : Option Response := match outcome with
          | .ok r => if 200 ≤ r.StatusCode ∧ r.StatusCode < 300 then some r else none
          | .fail _ _ => none
        match success with
        | some r => { resp := some r, err := none, trace := trace3, pool := pool2 }
        | none =>
          let respOpt : Option Response := match outcome with
            | .ok r => some r
            | .fail _ r0 => r0
          let errOpt : Option GoErr := match outcome with
            | .ok _ => none
            | .fail e _ => some e
          let bodyBytes : List Nat := match respOpt with
            | some r => r.Body.take 512
            | none => []
          let respStatus : Int := match respOpt with
            | some r => r.StatusCode
            | none => 0
          if 400 ≤ respStatus ∧ respStatus < 500 then
            { resp := none,
              err := some (.httpError ⟨respStatus, method, urlStr, bodyBytes, none⟩),
              trace := trace3, pool := pool2 }
          else
            let lastErr1 : Option ReqError :=
              some (.httpError ⟨0, method, urlStr, bodyBytes, errOpt⟩)
            if (attempt : Int) < options.Retries then
              if options.ForceRetry ∨ stringsToUpper method = "GET"
                  ∨ stringsToUpper method = "HEAD" then
                let backoff := options.Backoff attempt
                let trace4 := trace3 ++ [Event.wait attempt backoff]
                if spec.ctxDoneInBackoff then
                  { resp := none, err := some (.goError .ctxCanceled),
                    trace := trace4, pool := pool2 }
                else
                  requestLoop method urlStr body options env
                    (attempt + 1) fuel lastErr1 pool2 trace4
              else
                { resp := none, err := lastErr1, trace := trace3, pool := pool2 }
            else
              requestLoop method urlStr body options env
                (attempt + 1) fuel lastErr1 pool2 trace3

/-- The option defaults `Request` starts from: `Retries: 3`,
`Backoff: defaultBackoff`, everything else zero-valued. -/
def defaultOptions : ReqOption :=
  { Retries := 3, Backoff := defaultBackoff, Headers := [],
    ForceRetry := false, Middlewares := [] }

/-- `for _, opt := range opts { opt(options) }`: fold the option closures
over the defaults and the global state, in call order. -/
def applyOpts (opts : List OptionFunc) (o : ReqOption) (w : World) : ReqOption × World :=
  opts.foldl (fun ow f => f ow.1 ow.2) (o, w)

/-- Number of iterations `for attempt := 0; attempt <= retries` performs:
zero when `retries` is negative, `retries + 1` otherwise. -/
def iterCount (retries : Int) : Nat :=
  if retries < 0 then 0 else retries.toNat + 1

/-- The `Request` entry point: build the options from the defaults and
the caller's `OptionFunc`s, then run the attempt loop from attempt 0 with
`lastErr = nil`, an empty trace, and the given buffer-pool content. -/
def Request (method urlStr : String) (body : Option (List Nat)) (opts : List OptionFunc)
    (w : World) (env : Env) (pool : List Buffer) : LoopOut :=
  let options := (applyOpts opts defaultOptions w).1
  requestLoop method urlStr body options env 0 (iterCount options.Retries) none pool []

/-- The `*http.Transport` the package initializes `defaultClient` with
(proxy and TLS details aside; `MaxIdleConnsPerHost` is
`runtime.GOMAXPROCS(0) + 1`, taken here for a machine where that is 9). -/
def initialTransport : Transport :=
  { MaxIdleConns := 100, IdleConnTimeout := 90000000000,
    TLSHandshakeTimeout := 10000000000, ExpectContinueTimeout := 1000000000,
    MaxIdleConnsPerHost := 9, MaxConnsPerHost := 0, DisableKeepAlives := false }

/-- The initial `defaultClient`: the transport above and a 10s timeout. -/
def initialClient : Client :=
  { Transport := .httpTransport initialTransport, Timeout := 10000000000 }

/-- A concrete process state: `defaultClient` points at cell 0, every
heap cell holds the initial client. -/
def sampleWorld : World := { clientRef := 0, heap := fun _ => initialClient }

/-- A concrete environment where every attempt succeeds with an empty 200
response. -/
def sampleEnv : Env := fun _ => ⟨none, .ok ⟨200, []⟩, false⟩

end clientx

namespace clientx

theorem bufferPoolGet_snd (pool : List Buffer) : (bufferPoolGet pool).2 = pool.tail := by
  cases pool <;> rfl

theorem tuneTransport_clientRef (w : World) (g : Transport → Transport) :
    GetClient (tuneTransport w g) = GetClient w := by
  unfold tuneTransport
  cases (w.heap (GetClient w)).Transport <;> rfl

theorem tuneTransport_heap_other (w : World) (g : Transport → Transport)
    (r : Nat) (hr : r ≠ w.clientRef) : (tuneTransport w g).heap r = w.heap r := by
  unfold tuneTransport
  cases (w.heap (GetClient w)).Transport <;>
    simp [mutateClient, GetClient, hr]

theorem tuneTransport_heap_ref (w : World) (g : Transport → Transport)
    (tr : Transport) (htr : (w.heap w.clientRef).Transport = .httpTransport tr) :
    (tuneTransport w g).heap w.clientRef
      = { w.heap w.clientRef with Transport := .httpTransport (g tr) } := by
  unfold tuneTransport GetClient
  rw [htr]
  simp [mutateClient]

theorem tuneTransport_custom (w : World) (g : Transport → Transport)
    (i : Nat) (hi : (w.heap w.clientRef).Transport = .custom i) :
    tuneTransport w g = w := by
  unfold tuneTransport GetClient
  rw [hi]

theorem buildChain_cons (mw : Middleware) (mws : List Middleware) (base : DoFun) :
    buildChain (mw :: mws) base = mw (buildChain mws base) := rfl

theorem applyOpts_withMiddleware (mws : List Middleware) (o : ReqOption) (w : World) :
    applyOpts (mws.map WithMiddleware) o w
      = ({ o with Middlewares := o.Middlewares ++ mws }, w) := by
  induction mws generalizing o with
  | nil => simp [applyOpts]
  | cons m ms ih =>
      simp only [List.map_cons, applyOpts, List.foldl_cons] at *
      rw [show WithMiddleware m o w = ({ o with Middlewares := o.Middlewares ++ [m] }, w) from rfl]
      rw [ih]
      simp

theorem buildChain_mkLog (outcome : SendOutcome) (req : HttpReq) (ids : List String) :
    ∀ log : List String,
      buildChain (ids.map mkLogMiddleware) (baseDo outcome) req log
        = (outcome,
           log ++ ids.map (fun i => "before " ++ i) ++ ["base"]
               ++ ids.reverse.map (fun i => "after " ++ i)) := by
  induction ids with
  | nil => intro log; simp [buildChain, baseDo]
  | cons id ids ih =>
      intro log
      rw [List.map_cons, buildChain_cons]
      show (mkLogMiddleware id) (buildChain (ids.map mkLogMiddleware) (baseDo outcome)) req log = _
      rw [show ∀ next r l, mkLogMiddleware id next r l
            = ((next r (l ++ ["before " ++ id])).1,
               (next r (l ++ ["before " ++ id])).2 ++ ["after " ++ id]) from fun _ _ _ => rfl]
      rw [ih (log ++ ["before " ++ id])]
      simp

/-- C1 (amended): for middlewares appended in order via `WithMiddleware`,
the chain built by `Request` executes the FIRST-appended middleware
outermost: with `[A, B]`, A's before-request logic runs before B's, and
B's after-response logic runs before A's (FIFO over append order), with
the shared client's `Do` innermost. -/
theorem C1_first_appended_outermost (ids : List String) (outcome : SendOutcome)
    (req : HttpReq) (w : World) :
    buildChain
      ((applyOpts (ids.map fun i => WithMiddleware (mkLogMiddleware i))
          defaultOptions w).1.Middlewares)
      (baseDo outcome) req []
      = (outcome, ids.map (fun i => "before " ++ i) ++ ["base"]
          ++ ids.reverse.map (fun i => "after " ++ i)) := by
  rw [show (ids.map fun i => WithMiddleware (mkLogMiddleware i))
        = (ids.map mkLogMiddleware).map WithMiddleware by rw [List.map_map]; rfl]
  rw [applyOpts_withMiddleware]
  have h := buildChain_mkLog outcome req ids []
  simpa [defaultOptions] using h

/-- C1 is false as stated: with middlewares [A, B] appended in that order,
the composed chain runs A's before-logic first and B's after-logic first
(the last-appended middleware is innermost, not outermost), as the
execution log of a concrete run shows. -/
theorem C1_counterexample_lifo :
    ((buildChain
        ((applyOpts [WithMiddleware (mkLogMiddleware "A"), WithMiddleware (mkLogMiddleware "B")]
            defaultOptions sampleWorld).1.Middlewares)
        (baseDo (.ok ⟨200, []⟩)) ⟨"GET", "http://e"⟩ []).2
      = ["before A", "before B", "base", "after B", "after A"]) ∧
    ((buildChain
        ((applyOpts [WithMiddleware (mkLogMiddleware "A"), WithMiddleware (mkLogMiddleware "B")]
            defaultOptions sampleWorld).1.Middlewares)
        (baseDo (.ok ⟨200, []⟩)) ⟨"GET", "http://e"⟩ []).2
      ≠ ["before B", "before A", "base", "after A", "after B"]) := by
  exact ⟨rfl, by decide⟩

/-- C7: the default backoff yields 500ms at attempt 0, 1000ms at attempt
1 and the 30s clamp at attempt 6, but at attempt 35 the 64-bit duration
multiplication overflows and the function returns a negative duration
instead of the specified 30s clamp — the code contradicts its own
"exponential backoff, max 30s" intent. -/
theorem C7_defaultBackoff_overflow :
    defaultBackoff 0 = 500000000 ∧
    defaultBackoff 1 = 1000000000 ∧
    defaultBackoff 6 = 30000000000 ∧
    defaultBackoff 35 = -1266874889709551616 ∧
    defaultBackoff 35 ≠ 30000000000 := by
  refine ⟨?_, ?_, ?_, ?_, ?_⟩ <;> decide

/-- C10: a negative retry count configured via `WithRetries` makes the
attempt loop run zero times, so `Request` performs no attempt and returns
`(nil, nil)`: no response, no error, an empty trace, the pool untouched. -/
theorem C10_negative_retries_nil_nil (n : Int) (hn : n < 0) (method urlStr : String)
    (body : Option (List Nat)) (w : World) (env : Env) (pool : List Buffer) :
    Request method urlStr body [WithRetries n] w env pool
      = { resp := none, err := none, trace := [], pool := pool } := by
  simp [Request, applyOpts, WithRetries, defaultOptions, iterCount, hn, requestLoop]

theorem C10_witness :
    Request "GET" "http://e" none [WithRetries (-1)] sampleWorld sampleEnv []
      = { resp := none, err := none, trace := [], pool := [] } :=
  C10_negative_retries_nil_nil (-1) (by decide) "GET" "http://e" none sampleWorld sampleEnv []

/-- C9: the four transport tuning options mutate the current shared
client object in place and never replace it: the per-call option value is
returned unmodified, `GetClient` still yields the same reference, every
other heap cell is untouched, and the referenced client changes only in
the tuned parameter (for the three options guarded by the
`*http.Transport` type assertion this holds when the assertion succeeds;
when the transport is some other round tripper the whole state is left
unchanged). -/
theorem C9_tuning_mutates_client_in_place (o : ReqOption) (w : World) (t n : Int) :
    ((WithTimeout t o w).1 = o ∧
     GetClient (WithTimeout t o w).2 = GetClient w ∧
     (∀ r, r ≠ w.clientRef → (WithTimeout t o w).2.heap r = w.heap r) ∧
     (WithTimeout t o w).2.heap w.clientRef
       = { w.heap w.clientRef with Timeout := t })
  ∧ ((WithMaxIdleConns n o w).1 = o ∧
     GetClient (WithMaxIdleConns n o w).2 = GetClient w ∧
     (∀ r, r ≠ w.clientRef → (WithMaxIdleConns n o w).2.heap r = w.heap r) ∧
     (∀ tr, (w.heap w.clientRef).Transport = .httpTransport tr →
        (WithMaxIdleConns n o w).2.heap w.clientRef
          = { w.heap w.clientRef with
              Transport := .httpTransport { tr with MaxIdleConns := n } }) ∧
     (∀ i, (w.heap w.clientRef).Transport = .custom i → (WithMaxIdleConns n o w).2 = w))
  ∧ ((WithMaxConnsPerHost n o w).1 = o ∧
     GetClient (WithMaxConnsPerHost n o w).2 = GetClient w ∧
     (∀ r, r ≠ w.clientRef → (WithMaxConnsPerHost n o w).2.heap r = w.heap r) ∧
     (∀ tr, (w.heap w.clientRef).Transport = .httpTransport tr →
        (WithMaxConnsPerHost n o w).2.heap w.clientRef
          = { w.heap w.clientRef with
              Transport := .httpTransport { tr with MaxConnsPerHost := n } }) ∧
     (∀ i, (w.heap w.clientRef).Transport = .custom i → (WithMaxConnsPerHost n o w).2 = w))
  ∧ ((WithIdleConnTimeout t o w).1 = o ∧
     GetClient (WithIdleConnTimeout t o w).2 = GetClient w ∧
     (∀ r, r ≠ w.clientRef → (WithIdleConnTimeout t o w).2.heap r = w.heap r) ∧
     (∀ tr, (w.heap w.clientRef).Transport = .httpTransport tr →
        (WithIdleConnTimeout t o w).2.heap w.clientRef
          = { w.heap w.clientRef with
              Transport := .httpTransport { tr with IdleConnTimeout := t } }) ∧
     (∀ i, (w.heap w.clientRef).Transport = .custom i → (WithIdleConnTimeout t o w).2 = w)) := by
  refine ⟨⟨rfl, rfl, ?_, ?_⟩,
    ⟨rfl, tuneTransport_clientRef w _, fun r hr => tuneTransport_heap_other w _ r hr,
      fun tr htr => tuneTransport_heap_ref w _ tr htr,
      fun i hi => tuneTransport_custom w _ i hi⟩,
    ⟨rfl, tuneTransport_clientRef w _, fun r hr => tuneTransport_heap_other w _ r hr,
      fun tr htr => tuneTransport_heap_ref w _ tr htr,
      fun i hi => tuneTransport_custom w _ i hi⟩,
    ⟨rfl, tuneTransport_clientRef w _, fun r hr => tuneTransport_heap_other w _ r hr,
      fun tr htr => tuneTransport_heap_ref w _ tr htr,
      fun i hi => tuneTransport_custom w _ i hi⟩⟩
  · intro r hr
    simp [WithTimeout, mutateClient, GetClient, hr]
  · simp [WithTimeout, mutateClient, GetClient]

/-- C4: a response with status in [400,500) (e.g. 404) makes `Request`
return immediately after a single attempt, whatever the method, the
force-retry setting and the configured (non-negative) retry count: the
returned error is an `HTTPError` carrying that status and at most 512
bytes of the response body, exactly one send happens and no backoff wait
occurs. -/
theorem C4_4xx_single_attempt (method urlStr : String) (body : Option (List Nat))
    (retries : Int) (force : Bool) (w : World) (env : Env) (pool : List Buffer)
    (r : Response)
    (hret : 0 ≤ retries)
    (henv0 : (env 0).newReqErr = none) (henv1 : (env 0).send = .ok r)
    (hst : 400 ≤ r.StatusCode ∧ r.StatusCode < 500) :
    let out := Request method urlStr body
      (WithRetries retries :: if force then [WithForceRetry] else []) w env pool
    out.resp = none ∧
    out.err = some (.httpError ⟨r.StatusCode, method, urlStr, r.Body.take 512, none⟩) ∧
    out.trace.filter Event.isSend = [Event.send 0] ∧
    out.trace.filter Event.isWait = [] := by
  have hfuel : iterCount retries = retries.toNat + 1 := by
    simp only [iterCount, if_neg (by omega : ¬ retries < 0)]
  cases force <;>
    rcases body with _ | bs <;>
    [skip; (by_cases hlen : bs.length < 1024); skip; (by_cases hlen : bs.length < 1024)] <;>
    simp_all [Request, applyOpts, WithRetries, WithForceRetry, defaultOptions, hfuel,
      requestLoop, henv0, henv1, hst, List.filter_append, Event.isSend, Event.isWait,
      List.filter] <;>
    simp [if_neg (show ¬(200 ≤ r.StatusCode ∧ r.StatusCode < 300) from by omega),
      Event.isSend, Event.isWait]

theorem C4_witness :
    let out := Request "POST" "http://e" none
      (WithRetries 5 :: if false then [WithForceRetry] else []) sampleWorld
      (fun _ => ⟨none, .ok ⟨404, [1, 2]⟩, false⟩) []
    out.resp = none ∧
    out.err = some (.httpError ⟨404, "POST", "http://e", [1, 2], none⟩) ∧
    out.trace.filter Event.isSend = [Event.send 0] ∧
    out.trace.filter Event.isWait = [] :=
  C4_4xx_single_attempt "POST" "http://e" none 5 false sampleWorld
    (fun _ => ⟨none, .ok ⟨404, [1, 2]⟩, false⟩) [] ⟨404, [1, 2]⟩
    (by decide) rfl rfl (by decide)

/-- C5: a non-idempotent method (anything whose upper-cased form is
neither "GET" nor "HEAD") without `ForceRetry` that receives a
retry-candidate failure (a response that is neither 2xx nor 4xx, e.g.
503) makes `Request` perform exactly one attempt and return the recorded
last error — an `HTTPError` with status 0 and the truncated body —
regardless of the configured retry count, with no backoff wait. -/
theorem C5_non_idempotent_single_attempt (method urlStr : String) (body : Option (List Nat))
    (retries : Int) (w : World) (env : Env) (pool : List Buffer) (r : Response)
    (hm1 : stringsToUpper method ≠ "GET") (hm2 : stringsToUpper method ≠ "HEAD")
    (hret : 0 ≤ retries)
    (henv0 : (env 0).newReqErr = none) (henv1 : (env 0).send = .ok r)
    (h2 : ¬(200 ≤ r.StatusCode ∧ r.StatusCode < 300))
    (h4 : ¬(400 ≤ r.StatusCode ∧ r.StatusCode < 500)) :
    let out := Request method urlStr body [WithRetries retries] w env pool
    out.resp = none ∧
    out.err = some (.httpError ⟨0, method, urlStr, r.Body.take 512, none⟩) ∧
    out.trace.filter Event.isSend = [Event.send 0] ∧
    out.trace.filter Event.isWait = [] := by
  have hfuel : iterCount retries = retries.toNat + 1 := by
    simp only [iterCount, if_neg (by omega : ¬ retries < 0)]
  by_cases hlt : (0 : Int) < retries
  · rcases body with _ | bs <;>
      [skip; (by_cases hlen : bs.length < 1024)] <;>
      simp_all [Request, applyOpts, WithRetries, defaultOptions, hfuel, requestLoop,
        henv0, henv1, List.filter_append, Event.isSend, Event.isWait, List.filter] <;>
      simp [if_neg (show ¬(200 ≤ r.StatusCode ∧ r.StatusCode < 300) from
          fun hc => absurd (h2 hc.1) (not_le.mpr hc.2)),
        if_neg (show ¬(400 ≤ r.StatusCode ∧ r.StatusCode < 500) from
          fun hc => absurd (h4 hc.1) (not_le.mpr hc.2)),
        Event.isSend, Event.isWait, hlt, hm1, hm2]
  · have h0 : retries = 0 := by omega
    subst h0
    rcases body with _ | bs <;>
      [skip; (by_cases hlen : bs.length < 1024)] <;>
      simp_all [Request, applyOpts, WithRetries, defaultOptions, hfuel, requestLoop,
        henv0, henv1, List.filter_append, Event.isSend, Event.isWait, List.filter] <;>
      simp [if_neg (show ¬(200 ≤ r.StatusCode ∧ r.StatusCode < 300) from
          fun hc => absurd (h2 hc.1) (not_le.mpr hc.2)),
        if_neg (show ¬(400 ≤ r.StatusCode ∧ r.StatusCode < 500) from
          fun hc => absurd (h4 hc.1) (not_le.mpr hc.2)),
        Event.isSend, Event.isWait, requestLoop]

theorem C5_witness :
    let out := Request "POST" "http://e" none [WithRetries 5] sampleWorld
      (fun _ => ⟨none, .ok ⟨503, [7]⟩, false⟩) []
    out.resp = none ∧
    out.err = some (.httpError ⟨0, "POST", "http://e", [7], none⟩) ∧
    out.trace.filter Event.isSend = [Event.send 0] ∧
    out.trace.filter Event.isWait = [] :=
  C5_non_idempotent_single_attempt "POST" "http://e" none 5 sampleWorld
    (fun _ => ⟨none, .ok ⟨503, [7]⟩, false⟩) [] ⟨503, [7]⟩
    (by decide) (by decide) (by decide) rfl rfl (by decide) (by decide)

/-- C6: whenever the loop inside `Request` enters the backoff wait after
a retry-candidate failure (attempts remain and the method/force-retry
gate allows a retry) and the caller's context completes during that wait,
the loop returns the context's cancellation error instead of the
accumulated `AttemptError` and starts no further attempt: exactly one
more send and one backoff wait are recorded. -/
theorem C6_cancel_in_backoff_wait (method urlStr : String) (body : Option (List Nat))
    (options : ReqOption) (env : Env) (attempt fuel : Nat) (lastErr : Option ReqError)
    (pool : List Buffer) (trace : List Event) (e : GoErr)
    (henv : env attempt = ⟨none, .fail e none, true⟩)
    (hlt : (attempt : Int) < options.Retries)
    (hretry : options.ForceRetry ∨ stringsToUpper method = "GET"
      ∨ stringsToUpper method = "HEAD") :
    let out := requestLoop method urlStr body options env attempt (fuel + 1) lastErr pool trace
    out.resp = none ∧
    out.err = some (.goError .ctxCanceled) ∧
    out.trace.filter Event.isSend = trace.filter Event.isSend ++ [Event.send attempt] ∧
    out.trace.filter Event.isWait
      = trace.filter Event.isWait ++ [Event.wait attempt (options.Backoff attempt)] := by
  rcases body with _ | bs <;>
    [skip; (by_cases hlen : bs.length < 1024)] <;>
    simp_all [requestLoop, henv, hlt, hretry, List.filter_append, Event.isSend,
      Event.isWait, List.filter]

theorem C6_witness :
    let out := requestLoop "GET" "http://e" none defaultOptions
      (fun _ => ⟨none, .fail (.transport 0) none, true⟩) 0 1 none [] []
    out.resp = none ∧
    out.err = some (.goError .ctxCanceled) ∧
    out.trace.filter Event.isSend = [Event.send 0] ∧
    out.trace.filter Event.isWait = [Event.wait 0 500000000] :=
  C6_cancel_in_backoff_wait "GET" "http://e" none defaultOptions
    (fun _ => ⟨none, .fail (.transport 0) none, true⟩) 0 0 none [] [] (.transport 0)
    rfl (by decide) (Or.inr (Or.inl (by decide)))

theorem requestLoop_non2xx4xx_err (method urlStr : String) (body : Option (List Nat))
    (options : ReqOption) (env : Env) (r : Response)
    (henv : ∀ i, env i = ⟨none, .ok r, false⟩)
    (h2 : ¬(200 ≤ r.StatusCode ∧ r.StatusCode < 300))
    (h4 : ¬(400 ≤ r.StatusCode ∧ r.StatusCode < 500)) :
    ∀ (fuel attempt : Nat) (lastErr : Option ReqError) (pool : List Buffer)
      (trace : List Event),
      (lastErr = some (.httpError ⟨0, method, urlStr, r.Body.take 512, none⟩) ∨ 1 ≤ fuel) →
      ((requestLoop method urlStr body options env attempt fuel lastErr pool trace).err
          = some (.httpError ⟨0, method, urlStr, r.Body.take 512, none⟩)) ∧
      (requestLoop method urlStr body options env attempt fuel lastErr pool trace).resp
          = none := by
  intro fuel
  induction fuel with
  | zero =>
      intro attempt lastErr pool trace h
      rcases h with h | h
      · simp [requestLoop, h]
      · omega
  | succ m ih =>
      intro attempt lastErr pool trace _h
      by_cases hlt : (attempt : Int) < options.Retries <;>
        by_cases hg : (options.ForceRetry ∨ stringsToUpper method = "GET"
          ∨ stringsToUpper method = "HEAD") <;>
        simp [requestLoop, henv attempt, if_neg h2, if_neg h4, hlt, hg] <;>
        exact ih _ _ _ _ (Or.inl rfl)

/-- C2 is false as stated: a GET with retries = 0 whose single attempt
receives a 503 response yields an `AttemptError` whose `StatusCode` is 0,
not 503, even though an HTTP response was obtained. -/
theorem C2_counterexample :
    ((Request "GET" "u" none [WithRetries 0] sampleWorld
        (fun _ => ⟨none, .ok ⟨503, [1, 2, 3]⟩, false⟩) []).err
      = some (.httpError ⟨0, "GET", "u", [1, 2, 3], none⟩)) ∧
    ¬ ∃ e : HTTPError,
        (Request "GET" "u" none [WithRetries 0] sampleWorld
          (fun _ => ⟨none, .ok ⟨503, [1, 2, 3]⟩, false⟩) []).err
          = some (.httpError e) ∧ e.StatusCode = 503 := by
  have h : (Request "GET" "u" none [WithRetries 0] sampleWorld
      (fun _ => ⟨none, .ok ⟨503, [1, 2, 3]⟩, false⟩) []).err
      = some (.httpError ⟨0, "GET", "u", [1, 2, 3], none⟩) := by decide
  refine ⟨h, ?_⟩
  rintro ⟨e, he, hs⟩
  rw [h] at he
  simp only [Option.some.injEq, ReqError.httpError.injEq] at he
  rw [← he] at hs
  exact absurd hs (by decide)

/-- C2 (amended): when every attempt obtains a 5xx response, the
`AttemptError` surfaced once the budget is exhausted or retry is
disallowed always carries `StatusCode` 0 — the 5xx status is not
preserved (only the non-retryable 4xx path records the actual status),
though the truncated response body is. -/
theorem C2_amended_retry_error_status_zero (method urlStr : String)
    (body : Option (List Nat)) (retries : Int) (w : World) (env : Env)
    (pool : List Buffer) (r : Response)
    (hret : 0 ≤ retries)
    (henv : ∀ i, env i = ⟨none, .ok r, false⟩)
    (h5 : 500 ≤ r.StatusCode) :
    (Request method urlStr body [WithRetries retries] w env pool).err
      = some (.httpError ⟨0, method, urlStr, r.Body.take 512, none⟩) ∧
    (Request method urlStr body [WithRetries retries] w env pool).resp = none := by
  have h2 : ¬(200 ≤ r.StatusCode ∧ r.StatusCode < 300) := by omega
  have h4 : ¬(400 ≤ r.StatusCode ∧ r.StatusCode < 500) := by omega
  have key := requestLoop_non2xx4xx_err method urlStr body
    { defaultOptions with Retries := retries } env r henv h2 h4
    (retries.toNat + 1) 0 none pool [] (Or.inr (by omega))
  simpa [Request, applyOpts, WithRetries, defaultOptions, iterCount,
    if_neg (by omega : ¬ retries < 0)] using key

theorem C2_witness :
    (Request "GET" "http://e" none [WithRetries 2] sampleWorld
      (fun _ => ⟨none, .ok ⟨503, [9]⟩, false⟩) []).err
      = some (.httpError ⟨0, "GET", "http://e", [9], none⟩) ∧
    (Request "GET" "http://e" none [WithRetries 2] sampleWorld
      (fun _ => ⟨none, .ok ⟨503, [9]⟩, false⟩) []).resp = none :=
  C2_amended_retry_error_status_zero "GET" "http://e" none 2 sampleWorld
    (fun _ => ⟨none, .ok ⟨503, [9]⟩, false⟩) [] ⟨503, [9]⟩
    (by decide) (fun _ => rfl) (by decide)

/-- C3 is false as stated: for a POST whose send fails because the
context was cancelled during the send, `Request` returns the accumulated
`AttemptError` wrapping the cancellation-caused transport error, not the
context's cancellation error. -/
theorem C3_counterexample :
    ((Request "POST" "u" none [] sampleWorld
        (fun _ => ⟨none, .fail .sendCanceled none, true⟩) []).err
      = some (.httpError ⟨0, "POST", "u", [], some .sendCanceled⟩)) ∧
    ((Request "POST" "u" none [] sampleWorld
        (fun _ => ⟨none, .fail .sendCanceled none, true⟩) []).err
      ≠ some (.goError .ctxCanceled)) := by
  exact ⟨by decide, by decide⟩

/-- C3 (amended): a transport failure caused by cancellation during the
send is recorded like any other transport failure — it IS classified as a
retry-candidate. With a non-retryable method the returned error is the
`AttemptError` wrapping the cancellation-caused transport error, not the
context's cancellation error; the cancellation error is surfaced only
when the failure is retryable and the subsequent backoff select observes
the completed context (in which case a backoff wait is still entered
first). -/
theorem C3_amended_cancel_in_send :
    (∀ (method urlStr : String) (retries : Int) (w : World) (env : Env)
        (pool : List Buffer) (d : Bool),
        stringsToUpper method ≠ "GET" → stringsToUpper method ≠ "HEAD" →
        0 ≤ retries → env 0 = ⟨none, .fail .sendCanceled none, d⟩ →
        ((Request method urlStr none [WithRetries retries] w env pool).err
            = some (.httpError ⟨0, method, urlStr, [], some .sendCanceled⟩)) ∧
        ((Request method urlStr none [WithRetries retries] w env pool).err
            ≠ some (.goError .ctxCanceled)))
  ∧ (∀ (method urlStr : String) (body : Option (List Nat)) (options : ReqOption)
        (env : Env) (attempt fuel : Nat) (lastErr : Option ReqError)
        (pool : List Buffer) (trace : List Event),
        env attempt = ⟨none, .fail .sendCanceled none, true⟩ →
        (attempt : Int) < options.Retries →
        (options.ForceRetry ∨ stringsToUpper method = "GET"
          ∨ stringsToUpper method = "HEAD") →
        ((requestLoop method urlStr body options env attempt (fuel + 1)
            lastErr pool trace).err = some (.goError .ctxCanceled)) ∧
        ((requestLoop method urlStr body options env attempt (fuel + 1)
            lastErr pool trace).trace.filter Event.isWait
          = trace.filter Event.isWait
              ++ [Event.wait attempt (options.Backoff attempt)])) := by
  constructor
  · intro method urlStr retries w env pool d hm1 hm2 hret henv
    have hfuel : iterCount retries = retries.toNat + 1 := by
      simp only [iterCount, if_neg (by omega : ¬ retries < 0)]
    have herr : (Request method urlStr none [WithRetries retries] w env pool).err
        = some (.httpError ⟨0, method, urlStr, [], some .sendCanceled⟩) := by
      by_cases hlt : (0 : Int) < retries
      · simp [Request, applyOpts, WithRetries, defaultOptions, hfuel, requestLoop,
          henv, hlt, hm1, hm2]
      · have h0 : retries = 0 := by omega
        subst h0
        simp [Request, applyOpts, WithRetries, defaultOptions, hfuel, requestLoop, henv]
    exact ⟨herr, by simp [herr]⟩
  · intro method urlStr body options env attempt fuel lastErr pool trace henv hlt hg
    rcases body with _ | bs <;>
      [skip; (by_cases hlen : bs.length < 1024)] <;>
      simp_all [requestLoop, henv, hlt, hg, List.filter_append, Event.isWait, List.filter]

theorem C3_witness :
    (((Request "POST" "http://e" none [WithRetries 3] sampleWorld
        (fun _ => ⟨none, .fail .sendCanceled none, true⟩) []).err
      = some (.httpError ⟨0, "POST", "http://e", [], some .sendCanceled⟩)) ∧
     ((Request "POST" "http://e" none [WithRetries 3] sampleWorld
        (fun _ => ⟨none, .fail .sendCanceled none, true⟩) []).err
      ≠ some (.goError .ctxCanceled))) ∧
    (((requestLoop "GET" "http://e" none defaultOptions
        (fun _ => ⟨none, .fail .sendCanceled none, true⟩) 0 1 none [] []).err
      = some (.goError .ctxCanceled)) ∧
     ((requestLoop "GET" "http://e" none defaultOptions
        (fun _ => ⟨none, .fail .sendCanceled none, true⟩) 0 1 none [] []).trace.filter
          Event.isWait = [Event.wait 0 500000000])) :=
  ⟨C3_amended_cancel_in_send.1 "POST" "http://e" 3 sampleWorld
      (fun _ => ⟨none, .fail .sendCanceled none, true⟩) [] true
      (by decide) (by decide) (by decide) rfl,
   C3_amended_cancel_in_send.2 "GET" "http://e" none defaultOptions
      (fun _ => ⟨none, .fail .sendCanceled none, true⟩) 0 0 none [] []
      rfl (by decide) (Or.inr (Or.inl (by decide)))⟩

theorem bufferPut_after_get (bs : List Nat) (pool : List Buffer) :
    bufferPoolPut (bufferPoolGet pool).2 ((bufferPoolGet pool).1.reset.write bs)
      = bs :: pool.tail := by
  cases pool <;> rfl

theorem requestLoop_pool_bypass (method urlStr : String) (body : Option (List Nat))
    (options : ReqOption) (env : Env)
    (hsmall : (match body with
      | some bs => ! decide (bs.length < 1024)
      | none => false) = false) :
    ∀ (fuel attempt : Nat) (lastErr : Option ReqError) (pool : List Buffer)
      (trace : List Event),
      ((requestLoop method urlStr body options env attempt fuel lastErr pool
          trace).trace.filter Event.isPool = trace.filter Event.isPool) ∧
      (requestLoop method urlStr body options env attempt fuel lastErr pool
          trace).pool = pool := by
  intro fuel
  induction fuel with
  | zero => intro attempt lastErr pool trace; simp [requestLoop]
  | succ m ih =>
      intro attempt lastErr pool trace
      simp only [requestLoop, hsmall, Bool.false_eq_true, if_false]
      split
      · simp
      · split
        · simp [List.filter_append, Event.isPool, List.filter]
        · split
          · simp [List.filter_append, Event.isPool, List.filter]
          · split
            · split
              · split
                · simp [List.filter_append, Event.isPool, List.filter]
                · refine ⟨(ih _ _ _ _).1.trans ?_, (ih _ _ _ _).2⟩
                  simp [List.filter_append, Event.isPool, List.filter]
              · simp [List.filter_append, Event.isPool, List.filter]
            · refine ⟨(ih _ _ _ _).1.trans ?_, (ih _ _ _ _).2⟩
              simp [List.filter_append, Event.isPool, List.filter]

theorem requestLoop_pool_pairs (method urlStr : String) (bs : List Nat)
    (options : ReqOption) (env : Env) (hlen : ¬ bs.length < 1024) :
    ∀ (fuel attempt : Nat) (lastErr : Option ReqError) (pool : List Buffer)
      (trace : List Event),
      ∃ n, ((requestLoop method urlStr (some bs) options env attempt fuel lastErr pool
              trace).trace.filter Event.isPool
            = trace.filter Event.isPool ++ poolPairs attempt n) ∧
        (requestLoop method urlStr (some bs) options env attempt fuel lastErr pool
            trace).pool = (if n = 0 then pool else bs :: pool.tail) := by
  intro fuel
  induction fuel with
  | zero =>
      intro attempt lastErr pool trace
      exact ⟨0, by simp [requestLoop, poolPairs]⟩
  | succ m ih =>
      intro attempt lastErr pool trace
      have hup : (!decide (bs.length < 1024)) = true := by simp [hlen]
      simp only [requestLoop, hup, if_true, Option.getD_some, bufferPut_after_get,
        eq_self_iff_true]
      split
      · exact ⟨1, by simp [List.filter_append, Event.isPool, List.filter, poolPairs]⟩
      · split
        · exact ⟨1, by simp [List.filter_append, Event.isPool, List.filter, poolPairs]⟩
        · split
          · exact ⟨1, by simp [List.filter_append, Event.isPool, List.filter, poolPairs]⟩
          · split
            · split
              · split
                · exact ⟨1, by simp [List.filter_append, Event.isPool, List.filter,
                    poolPairs]⟩
                · obtain ⟨k, h1, h2⟩ := ih _ _ _ _
                  refine ⟨k + 1, h1.trans ?_, h2.trans ?_⟩
                  · simp [List.filter_append, Event.isPool, List.filter, poolPairs]
                  · rcases k with _ | k <;> simp [bufferPut_after_get]
              · exact ⟨1, by simp [List.filter_append, Event.isPool, List.filter,
                  poolPairs]⟩
            · obtain ⟨k, h1, h2⟩ := ih _ _ _ _
              refine ⟨k + 1, h1.trans ?_, h2.trans ?_⟩
              · simp [List.filter_append, Event.isPool, List.filter, poolPairs]
              · rcases k with _ | k <;> simp [bufferPut_after_get]

/-- C8: in every `Request` call, a nil body or a body shorter than 1024
bytes bypasses the buffer pool entirely (no pool traffic, pool content
untouched), while a body of at least 1024 bytes produces exactly the
per-attempt acquire/release pattern: each started attempt takes one
buffer and returns exactly one buffer before the next attempt begins, on
every exit path, so the pool never grows by more than the one buffer that
carries the body bytes (`bs :: pool.tail`); and the buffer is reset at
acquire time, so the written content is the body regardless of any stale
content. -/
theorem C8_buffer_pool_discipline (method urlStr : String) (opts : List OptionFunc)
    (w : World) (env : Env) (pool : List Buffer) :
    (∀ bs : List Nat, bs.length < 1024 →
       (Request method urlStr (some bs) opts w env pool).trace.filter Event.isPool = [] ∧
       (Request method urlStr (some bs) opts w env pool).pool = pool)
  ∧ ((Request method urlStr none opts w env pool).trace.filter Event.isPool = [] ∧
     (Request method urlStr none opts w env pool).pool = pool)
  ∧ (∀ bs : List Nat, 1024 ≤ bs.length →
       ∃ n, (Request method urlStr (some bs) opts w env pool).trace.filter Event.isPool
              = poolPairs 0 n ∧
            (Request method urlStr (some bs) opts w env pool).pool
              = (if n = 0 then pool else bs :: pool.tail))
  ∧ (∀ stale content : List Nat, (Buffer.reset stale).write content = content) := by
  refine ⟨?_, ?_, ?_, fun _ _ => rfl⟩
  · intro bs hbs
    have h := requestLoop_pool_bypass method urlStr (some bs)
      ((applyOpts opts defaultOptions w).1) env (by simp [hbs])
      (iterCount ((applyOpts opts defaultOptions w).1).Retries) 0 none pool []
    simpa [Request] using h
  · have h := requestLoop_pool_bypass method urlStr none
      ((applyOpts opts defaultOptions w).1) env rfl
      (iterCount ((applyOpts opts defaultOptions w).1).Retries) 0 none pool []
    simpa [Request] using h
  · intro bs hbs
    have h := requestLoop_pool_pairs method urlStr bs
      ((applyOpts opts defaultOptions w).1) env (by omega)
      (iterCount ((applyOpts opts defaultOptions w).1).Retries) 0 none pool []
    simpa [Request] using h

theorem C8_witness :
    ((Request "GET" "http://e" (some [1, 2]) [] sampleWorld sampleEnv [[9]]).trace.filter
        Event.isPool = [] ∧
     (Request "GET" "http://e" (some [1, 2]) [] sampleWorld sampleEnv [[9]]).pool = [[9]]) ∧
    ((Request "GET" "http://e" none [] sampleWorld sampleEnv [[9]]).trace.filter
        Event.isPool = [] ∧
     (Request "GET" "http://e" none [] sampleWorld sampleEnv [[9]]).pool = [[9]]) ∧
    (∃ n, (Request "GET" "http://e" (some (List.replicate 1024 7)) [] sampleWorld sampleEnv
            [[9]]).trace.filter Event.isPool = poolPairs 0 n ∧
          (Request "GET" "http://e" (some (List.replicate 1024 7)) [] sampleWorld sampleEnv
            [[9]]).pool
            = (if n = 0 then [[9]] else List.replicate 1024 7 :: [[9]].tail)) ∧
    (Buffer.reset [3]).write [4] = [4] :=
  have h := C8_buffer_pool_discipline "GET" "http://e" [] sampleWorld sampleEnv [[9]]
  ⟨h.1 [1, 2] (by decide), h.2.1,
   h.2.2.1 (List.replicate 1024 7) (le_of_eq (List.length_replicate 1024 7).symm),
   h.2.2.2 [3] [4]⟩

theorem C9_witness :
    ((WithTimeout 5 defaultOptions sampleWorld).2.heap sampleWorld.clientRef).Timeout = 5 ∧
    (WithTimeout 5 defaultOptions sampleWorld).2.heap 3 = sampleWorld.heap 3 ∧
    (WithMaxIdleConns 42 defaultOptions sampleWorld).2.heap sampleWorld.clientRef
      = { sampleWorld.heap sampleWorld.clientRef with
          Transport := .httpTransport { initialTransport with MaxIdleConns := 42 } } ∧
    GetClient (WithIdleConnTimeout 7 defaultOptions sampleWorld).2 = GetClient sampleWorld := by
  have h := C9_tuning_mutates_client_in_place defaultOptions sampleWorld 5 42
  have h2 := C9_tuning_mutates_client_in_place defaultOptions sampleWorld 7 42
  refine ⟨?_, h.1.2.2.1 3 (by decide), h.2.1.2.2.2.1 initialTransport rfl, h2.2.2.2.2.1⟩
  rw [h.1.2.2.2]

end clientx

